import Mathlib

/-!
Shallow embedding of the species/park association core of the Tunisia
National Parks API: the handlers of src/main.py over the relational model of
src/models.py (tables `parks`, `species`, `park_species`).

The database state is a record of lists of rows.  The ORM collection
attributes `SpeciesDB.parks` / `ParkDB.species` that src/main.py manipulates
are intentionally omitted from src/models.py (its comments defer the
many-to-many relationship to the `ParkSpeciesLink` join table); their
semantics is modelled from the spec where noted.
-/

namespace TunisiaParks

/-- Domain of the `type` column of the species table
(`Literal["animal", "plant"]` in src/main.py). -/
inductive SpeciesType where
  | animal
  | plant
deriving DecidableEq, Repr

/-- Row of the `parks` table: the columns the park CRUD handlers of
src/main.py read and write.  Coordinates and area are only stored and copied
by the association core, never computed with, so they are modelled as
integers. -/
structure Park where
  id : Nat
  name : String
  governorate : String
  description : String
  latitude : Int
  longitude : Int
  area_km2 : Int
deriving DecidableEq, Repr

/-- Row of the `species` table: the columns the species CRUD handlers touch. -/
structure Species where
  id : Nat
  name : String
  type : SpeciesType
  scientific_name : String
  description : String
  threats : String
  protection_measures : String
  safety_guidelines : String
  medicinal_use : Option String
  image_url : Option String
deriving DecidableEq, Repr

/-- Row of the `park_species` join table (src/models.py `ParkSpeciesLink`):
composite primary key (park_id, species_id).  The optional annotation columns
(population estimate, sighting probability, best spots) are never written by
the handlers and are omitted. -/
structure Link where
  park_id : Nat
  species_id : Nat
deriving DecidableEq, Repr

/-- The relational store: the three tables the association core operates on. -/
structure DB where
  parks : List Park
  species : List Species
  links : List Link
deriving DecidableEq, Repr

/-- Lookup `session.get(ParkDB, park_id)`: primary-key lookup. -/
def sessionGetPark (db : DB) (pid : Nat) : Option Park :=
  db.parks.find? (fun p => decide (p.id = pid))

/-- Lookup `session.get(SpeciesDB, species_id)`: primary-key lookup. -/
def sessionGetSpecies (db : DB) (sid : Nat) : Option Species :=
  db.species.find? (fun s => decide (s.id = sid))

/-- Modelled from the spec: the ORM collection attribute `SpeciesDB.parks`
used by src/main.py but omitted from src/models.py — the many-to-many
relationship carried by the `park_species` join table.  It resolves to the
parks joined to the species through a link row. -/
def speciesParks (db : DB) (sid : Nat) : List Park :=
  db.parks.filter (fun p =>
    db.links.any (fun l => decide (l.park_id = p.id ∧ l.species_id = sid)))

/-- Modelled from the spec: the ORM collection attribute `ParkDB.species`,
the mirror image of `speciesParks`. -/
def parkSpecies (db : DB) (pid : Nat) : List Species :=
  db.species.filter (fun s =>
    db.links.any (fun l => decide (l.park_id = pid ∧ l.species_id = s.id)))

/-- Errors surfaced by the handlers: `HTTPException(status_code=404)` and a
database integrity error (violation of the composite primary key of
`park_species`). -/
inductive ApiError where
  | notFound (detail : String)
  | integrityError
deriving DecidableEq, Repr

def parkNotFound : String := "Park not found"

def speciesNotFound : String := "Species not found"

def speciesBucket : String := "species"

/-- Embedding of utils.get_file_url. -/
def get_file_url (filename : String) (file_type : String) : String :=
  "/uploads/" ++ file_type ++ "/" ++ filename

/-- Response model `Species` of src/main.py. -/
structure SpeciesOut where
  id : Nat
  name : String
  type : SpeciesType
  scientific_name : String
  description : String
  threats : String
  protection_measures : String
  safety_guidelines : String
  medicinal_use : Option String
  image_url : Option String
  park_ids : List Nat
deriving DecidableEq, Repr

/-- Response body the species handlers build from a row; `park_ids` reads the
relationship (`[p.id for p in s.parks]`). -/
def speciesOut (db : DB) (s : Species) : SpeciesOut where
  id := s.id
  name := s.name
  type := s.type
  scientific_name := s.scientific_name
  description := s.description
  threats := s.threats
  protection_measures := s.protection_measures
  safety_guidelines := s.safety_guidelines
  medicinal_use := s.medicinal_use
  image_url := s.image_url.map (fun f => get_file_url f speciesBucket)
  park_ids := (speciesParks db s.id).map Park.id

/-- Autoincrement primary key: SQLite assigns one more than the largest id in
the table. -/
def nextSpeciesId (db : DB) : Nat :=
  db.species.foldr (fun s m => max s.id m) 0 + 1

/-- Autoincrement primary key for the parks table. -/
def nextParkId (db : DB) : Nat :=
  db.parks.foldr (fun p m => max p.id m) 0 + 1

/-- Committing freshly added `park_species` rows: the composite primary key
(park_id, species_id) rejects a pending row that repeats an existing row or
another pending row; a failing flush rolls the whole commit back. -/
def insertLinks (existing pending : List Link) : Except ApiError (List Link) :=
  if pending.Nodup ∧ ∀ l ∈ pending, l ∉ existing then
    Except.ok (existing ++ pending)
  else
    Except.error ApiError.integrityError

/-- Link rows built by the `for park_id in species_in.park_ids` loop of
`create_species`: each requested id is resolved with `session.get`; ids that
do not resolve are silently skipped. -/
def createPending (db : DB) (sid : Nat) (pidList : List Nat) : List Link :=
  pidList.filterMap (fun pid =>
    (sessionGetPark db pid).map
      (fun park => ({ park_id := park.id, species_id := sid } : Link)))

/-- Link rows surviving the removal loop of `update_species`
(`for park in list(species_db.parks): if park.id not in new_ids:
species_db.parks.remove(park)`): a link of the species is deleted exactly
when its park is in the current relationship and its id is absent from the
requested set. -/
def removeStale (db : DB) (sid : Nat) (newIds : List Nat) : List Link :=
  db.links.filter (fun l =>
    !(decide (l.species_id = sid ∧
        (∃ p ∈ speciesParks db sid, p.id = l.park_id) ∧ l.park_id ∉ newIds)))

/-- Link rows appended by the addition loop of `update_species`
(`for park_id in new_ids - current_ids`): requested ids not currently linked,
resolved with `session.get`, silently skipped when they do not resolve. -/
def pendingLinks (db : DB) (sid : Nat) (newIds : List Nat) : List Link :=
  (newIds.filter
      (fun pid => !(decide (pid ∈ (speciesParks db sid).map Park.id)))).filterMap
    (fun pid => (sessionGetPark db pid).map
      (fun park => ({ park_id := park.id, species_id := sid } : Link)))

/-- Request body `SpeciesCreate` of src/main.py. -/
structure SpeciesCreate where
  name : String
  type : SpeciesType
  scientific_name : String
  description : String
  threats : String
  protection_measures : String := ""
  safety_guidelines : String := ""
  medicinal_use : Option String := none
  image_url : Option String := none
  park_ids : List Nat := []
deriving Repr

/-- Species row built by `create_species` from the request body, with the
autoincrement primary key assigned at the first commit. -/
def createRow (db : DB) (inp : SpeciesCreate) : Species :=
  { id := nextSpeciesId db, name := inp.name, type := inp.type,
    scientific_name := inp.scientific_name, description := inp.description,
    threats := inp.threats, protection_measures := inp.protection_measures,
    safety_guidelines := inp.safety_guidelines,
    medicinal_use := inp.medicinal_use, image_url := inp.image_url }

/-- Handler POST /api/species (`create_species` in src/main.py): the species
row is committed first; the link rows are then built by resolving each
requested park id with `session.get` — ids that do not resolve are silently
skipped — and committed second (the handler skips the second commit for an
empty list, which is equivalent to committing no rows).  A failing link
commit leaves the already committed species row in place. -/
def create_species (db : DB) (inp : SpeciesCreate) : DB × Except ApiError SpeciesOut :=
  let s : Species := createRow db inp
  let db1 : DB := { db with species := db.species ++ [s] }
  match insertLinks db1.links (createPending db1 s.id inp.park_ids) with
  | Except.ok committed =>
      let db2 : DB := { db1 with links := committed }
      (db2, Except.ok (speciesOut db2 s))
  | Except.error e => (db1, Except.error e)

/-- Request body `SpeciesUpdate` of src/main.py; `none` models a field absent
from the request (`model_dump(exclude_unset=True)`).  For the two nullable
columns the inner option is the stored value.  For `park_ids`, an explicit
JSON null is coerced by the handler (`data["park_ids"] or []`) to the empty
list, so it is modelled as `some []`. -/
structure SpeciesUpdate where
  name : Option String := none
  type : Option SpeciesType := none
  scientific_name : Option String := none
  description : Option String := none
  threats : Option String := none
  protection_measures : Option String := none
  safety_guidelines : Option String := none
  medicinal_use : Option (Option String) := none
  image_url : Option (Option String) := none
  park_ids : Option (List Nat) := none
deriving Repr

/-- Application of the `simple_fields` loop of `update_species`: overwrite
exactly the fields present in the request. -/
def applySpeciesUpdate (inp : SpeciesUpdate) (s : Species) : Species where
  id := s.id
  name := inp.name.getD s.name
  type := inp.type.getD s.type
  scientific_name := inp.scientific_name.getD s.scientific_name
  description := inp.description.getD s.description
  threats := inp.threats.getD s.threats
  protection_measures := inp.protection_measures.getD s.protection_measures
  safety_guidelines := inp.safety_guidelines.getD s.safety_guidelines
  medicinal_use := inp.medicinal_use.getD s.medicinal_use
  image_url := inp.image_url.getD s.image_url

/-- Handler PUT /api/species/{species_id} (`update_species` in src/main.py):
404 when the id does not resolve; otherwise the set scalar fields are
overwritten and, when `park_ids` is present, the link set is reconciled by
diff against `set(data["park_ids"] or [])`: links to currently linked parks
absent from the requested set are removed, park ids in the requested set not
currently linked are appended when they resolve and silently skipped
otherwise.  Everything is flushed by one commit, rolled back whole on an
integrity error. -/
def update_species (db : DB) (sid : Nat) (inp : SpeciesUpdate) :
    DB × Except ApiError SpeciesOut :=
  match sessionGetSpecies db sid with
  | none => (db, Except.error (ApiError.notFound speciesNotFound))
  | some s0 =>
    let s1 := applySpeciesUpdate inp s0
    let species1 := db.species.map (fun s => if s.id = s0.id then s1 else s)
    match inp.park_ids with
    | none =>
        let db1 : DB := { db with species := species1 }
        (db1, Except.ok (speciesOut db1 s1))
    | some pidList =>
        let newIds := pidList.dedup
        match insertLinks (removeStale db s0.id newIds) (pendingLinks db s0.id newIds) with
        | Except.ok committed =>
            let db1 : DB := { db with species := species1, links := committed }
            (db1, Except.ok (speciesOut db1 s1))
        | Except.error e => (db, Except.error e)

/-- Handler DELETE /api/species/{species_id} (`delete_species` in
src/main.py): 404 when the id does not resolve, otherwise the row is deleted.
Modelled from the spec for the link cascade, absent from src/: deleting the
species through the ORM removes every `park_species` row referencing it
("DELETE /api/species/{id} — cascades link removal"). -/
def delete_species (db : DB) (sid : Nat) : DB × Except ApiError Unit :=
  match sessionGetSpecies db sid with
  | none => (db, Except.error (ApiError.notFound speciesNotFound))
  | some s0 =>
      ({ db with
          species := db.species.filter (fun s => !(decide (s.id = s0.id))),
          links := db.links.filter (fun l => !(decide (l.species_id = s0.id))) },
       Except.ok ())

/-- Handler GET /api/species/{species_id} (`get_species` in src/main.py). -/
def get_species (db : DB) (sid : Nat) : Except ApiError SpeciesOut :=
  match sessionGetSpecies db sid with
  | none => Except.error (ApiError.notFound speciesNotFound)
  | some s => Except.ok (speciesOut db s)

/-- Handler GET /api/species?type=&park_id= (`list_species` in src/main.py):
the type filter is a WHERE clause on the species table; the park filter keeps
the species whose relationship contains a park with the requested id
(`any(p.id == park_id for p in s.parks)`). -/
def list_species (db : DB) (typeFilter : Option SpeciesType) (parkFilter : Option Nat) :
    List SpeciesOut :=
  let rows := match typeFilter with
    | none => db.species
    | some t => db.species.filter (fun s => decide (s.type = t))
  let rows2 := match parkFilter with
    | none => rows
    | some pid => rows.filter (fun s =>
        (speciesParks db s.id).any (fun p => decide (p.id = pid)))
  rows2.map (speciesOut db)

/-- Handler GET /api/parks/{park_id}/species (`list_species_for_park` in
src/main.py): 404 when the park id does not resolve, otherwise the species of
the park's relationship (`park.species`). -/
def list_species_for_park (db : DB) (pid : Nat) : Except ApiError (List SpeciesOut) :=
  match sessionGetPark db pid with
  | none => Except.error (ApiError.notFound parkNotFound)
  | some park => Except.ok ((parkSpecies db park.id).map (speciesOut db))

/-- Request body `ParkCreate` of src/main.py. -/
structure ParkCreate where
  name : String
  governorate : String
  description : String
  latitude : Int
  longitude : Int
  area_km2 : Int
deriving Repr

/-- Handler POST /api/parks (`create_park` in src/main.py). -/
def create_park (db : DB) (inp : ParkCreate) : DB × Except ApiError Park :=
  let p : Park :=
    { id := nextParkId db, name := inp.name, governorate := inp.governorate,
      description := inp.description, latitude := inp.latitude,
      longitude := inp.longitude, area_km2 := inp.area_km2 }
  ({ db with parks := db.parks ++ [p] }, Except.ok p)

/-- Request body `ParkUpdate` of src/main.py; `none` models a field absent
from the request. -/
structure ParkUpdate where
  name : Option String := none
  governorate : Option String := none
  description : Option String := none
  latitude : Option Int := none
  longitude : Option Int := none
  area_km2 : Option Int := none
deriving Repr

/-- Application of the `for field, value in data.items()` loop of
`update_park`: overwrite exactly the fields present in the request. -/
def applyParkUpdate (inp : ParkUpdate) (p : Park) : Park where
  id := p.id
  name := inp.name.getD p.name
  governorate := inp.governorate.getD p.governorate
  description := inp.description.getD p.description
  latitude := inp.latitude.getD p.latitude
  longitude := inp.longitude.getD p.longitude
  area_km2 := inp.area_km2.getD p.area_km2

/-- Handler PUT /api/parks/{park_id} (`update_park` in src/main.py). -/
def update_park (db : DB) (pid : Nat) (inp : ParkUpdate) : DB × Except ApiError Park :=
  match sessionGetPark db pid with
  | none => (db, Except.error (ApiError.notFound parkNotFound))
  | some p0 =>
      let p1 := applyParkUpdate inp p0
      ({ db with parks := db.parks.map (fun p => if p.id = p0.id then p1 else p) },
       Except.ok p1)

/-- Handler DELETE /api/parks/{park_id} (`delete_park` in src/main.py).
Modelled from the spec for the link cascade, as for `delete_species`: no link
row may survive without its park. -/
def delete_park (db : DB) (pid : Nat) : DB × Except ApiError Unit :=
  match sessionGetPark db pid with
  | none => (db, Except.error (ApiError.notFound parkNotFound))
  | some p0 =>
      ({ db with
          parks := db.parks.filter (fun p => !(decide (p.id = p0.id))),
          links := db.links.filter (fun l => !(decide (l.park_id = p0.id))) },
       Except.ok ())

/-- A park with the given id exists in the parks table. -/
def parkExists (db : DB) (pid : Nat) : Prop :=
  ∃ p ∈ db.parks, p.id = pid

/-- A species with the given id exists in the species table. -/
def speciesExists (db : DB) (sid : Nat) : Prop :=
  ∃ s ∈ db.species, s.id = sid

instance (db : DB) (pid : Nat) : Decidable (parkExists db pid) := by
  unfold parkExists; infer_instance

instance (db : DB) (sid : Nat) : Decidable (speciesExists db sid) := by
  unfold speciesExists; infer_instance

/-- Invariant of the link table stated in the spec's data model: at most one
row per (park, species) pair — the composite primary key — and referential
integrity of both foreign keys. -/
structure LinkInv (db : DB) : Prop where
  nodup : db.links.Nodup
  parkRef : ∀ l ∈ db.links, parkExists db l.park_id
  speciesRef : ∀ l ∈ db.links, speciesExists db l.species_id

/-- Well-formedness of the whole store: unique primary keys plus `LinkInv`. -/
structure DBInv (db : DB) extends LinkInv db : Prop where
  parksNodup : (db.parks.map Park.id).Nodup
  speciesNodup : (db.species.map Species.id).Nodup

/-- Modelled from the spec: the filtered listing of `list_species` with the
two independent filters applied in the opposite order ("order of filter
application must not change the result set"), for comparison with the
handler's order (type first, then park). -/
def list_species_parkFirst (db : DB) (typeFilter : Option SpeciesType)
    (parkFilter : Option Nat) : List SpeciesOut :=
  let rows := match parkFilter with
    | none => db.species
    | some pid => db.species.filter (fun s =>
        (speciesParks db s.id).any (fun p => decide (p.id = pid)))
  let rows2 := match typeFilter with
    | none => rows
    | some t => rows.filter (fun s => decide (s.type = t))
  rows2.map (speciesOut db)

/-- Concrete park row used to instantiate proved theorems. -/
def parkFix (pid : Nat) : Park :=
  { id := pid, name := "p", governorate := "g", description := "d",
    latitude := 0, longitude := 0, area_km2 := 1 }

/-- Concrete species row used to instantiate proved theorems. -/
def speciesFix (sid : Nat) : Species :=
  { id := sid, name := "s", type := SpeciesType.animal, scientific_name := "sn",
    description := "d", threats := "t", protection_measures := "m",
    safety_guidelines := "", medicinal_use := none, image_url := none }

/-- Concrete store: parks 1 and 2, species 1 linked to park 1. -/
def dbFix : DB :=
  { parks := [parkFix 1, parkFix 2], species := [speciesFix 1], links := [⟨1, 1⟩] }

/-- Concrete store: park 1 only, no species, no links. -/
def dbFixEmpty : DB :=
  { parks := [parkFix 1], species := [], links := [] }

/-- Concrete update request: full-replace the park list by [2, 3]. -/
def updFix : SpeciesUpdate := { park_ids := some [2, 3] }

/-- Concrete update request touching no field. -/
def updFixEmpty : SpeciesUpdate := {}

/-- Concrete park update request touching no field. -/
def parkUpdFixEmpty : ParkUpdate := {}

/-- Concrete create request with the duplicated resolving id 1. -/
def creFixDup : SpeciesCreate :=
  { name := "g", type := SpeciesType.animal, scientific_name := "gz",
    description := "d", threats := "t", park_ids := [1, 1, 2] }

/-- Concrete create request of the spec's Gazelle scenario. -/
def creFix : SpeciesCreate :=
  { name := "g", type := SpeciesType.animal, scientific_name := "gz",
    description := "d", threats := "t", park_ids := [1, 2] }

theorem sessionGetPark_id {db : DB} {pid : Nat} {p : Park}
    (h : sessionGetPark db pid = some p) : p.id = pid := by
  unfold sessionGetPark at h
  simpa using List.find?_some h

theorem sessionGetPark_mem {db : DB} {pid : Nat} {p : Park}
    (h : sessionGetPark db pid = some p) : p ∈ db.parks := by
  unfold sessionGetPark at h
  exact List.mem_of_find?_eq_some h

theorem sessionGetPark_isSome_iff {db : DB} {pid : Nat} :
    (sessionGetPark db pid).isSome ↔ parkExists db pid := by
  simp [sessionGetPark, List.find?_isSome, parkExists]

theorem sessionGetPark_eq_none_iff {db : DB} {pid : Nat} :
    sessionGetPark db pid = none ↔ ¬ parkExists db pid := by
  rw [← sessionGetPark_isSome_iff, Option.not_isSome_iff_eq_none]

theorem sessionGetSpecies_id {db : DB} {sid : Nat} {s : Species}
    (h : sessionGetSpecies db sid = some s) : s.id = sid := by
  unfold sessionGetSpecies at h
  simpa using List.find?_some h

theorem sessionGetSpecies_mem {db : DB} {sid : Nat} {s : Species}
    (h : sessionGetSpecies db sid = some s) : s ∈ db.species := by
  unfold sessionGetSpecies at h
  exact List.mem_of_find?_eq_some h

theorem sessionGetSpecies_isSome_iff {db : DB} {sid : Nat} :
    (sessionGetSpecies db sid).isSome ↔ speciesExists db sid := by
  simp [sessionGetSpecies, List.find?_isSome, speciesExists]

theorem sessionGetSpecies_eq_none_iff {db : DB} {sid : Nat} :
    sessionGetSpecies db sid = none ↔ ¬ speciesExists db sid := by
  rw [← sessionGetSpecies_isSome_iff, Option.not_isSome_iff_eq_none]

theorem mem_speciesParks {db : DB} {sid : Nat} {p : Park} :
    p ∈ speciesParks db sid ↔ p ∈ db.parks ∧ (⟨p.id, sid⟩ : Link) ∈ db.links := by
  simp only [speciesParks, List.mem_filter, List.any_eq_true, decide_eq_true_eq]
  constructor
  · rintro ⟨hp, l, hl, h1, h2⟩
    cases l
    cases h1
    cases h2
    exact ⟨hp, hl⟩
  · rintro ⟨hp, hl⟩
    exact ⟨hp, ⟨p.id, sid⟩, hl, rfl, rfl⟩

theorem mem_parkSpecies {db : DB} {pid : Nat} {s : Species} :
    s ∈ parkSpecies db pid ↔ s ∈ db.species ∧ (⟨pid, s.id⟩ : Link) ∈ db.links := by
  simp only [parkSpecies, List.mem_filter, List.any_eq_true, decide_eq_true_eq]
  constructor
  · rintro ⟨hs, l, hl, h1, h2⟩
    cases l
    cases h1
    cases h2
    exact ⟨hs, hl⟩
  · rintro ⟨hs, hl⟩
    exact ⟨hs, ⟨pid, s.id⟩, hl, rfl, rfl⟩

theorem mem_currentIds {db : DB} {sid pid : Nat} :
    pid ∈ (speciesParks db sid).map Park.id ↔
      parkExists db pid ∧ (⟨pid, sid⟩ : Link) ∈ db.links := by
  simp only [List.mem_map, mem_speciesParks, parkExists]
  constructor
  · rintro ⟨p, ⟨hp, hl⟩, rfl⟩
    exact ⟨⟨p, hp, rfl⟩, hl⟩
  · rintro ⟨⟨p, hp, hid⟩, hl⟩
    exact ⟨p, ⟨hp, by rw [hid]; exact hl⟩, hid⟩

theorem mem_removeStale {db : DB} {sid : Nat} {newIds : List Nat} {l : Link} :
    l ∈ removeStale db sid newIds ↔
      l ∈ db.links ∧ ¬(l.species_id = sid ∧ parkExists db l.park_id ∧ l.park_id ∉ newIds) := by
  unfold removeStale
  rw [List.mem_filter]
  simp only [Bool.not_eq_true', decide_eq_false_iff_not]
  constructor
  · rintro ⟨hmem, h⟩
    refine ⟨hmem, fun hc => ?_⟩
    obtain ⟨h1, ⟨p, hp, hpid⟩, h3⟩ := hc
    have hmem' : (⟨p.id, sid⟩ : Link) ∈ db.links := by
      have : (⟨p.id, sid⟩ : Link) = l := by
        cases l
        cases h1
        cases hpid
        rfl
      rw [this]
      exact hmem
    exact h ⟨h1, ⟨p, mem_speciesParks.mpr ⟨hp, hmem'⟩, hpid⟩, h3⟩
  · rintro ⟨hmem, h⟩
    refine ⟨hmem, fun hc => ?_⟩
    obtain ⟨h1, ⟨p, hp, hpid⟩, h3⟩ := hc
    exact h ⟨h1, ⟨p, (mem_speciesParks.mp hp).1, hpid⟩, h3⟩

theorem removeStale_sublist (db : DB) (sid : Nat) (newIds : List Nat) :
    (removeStale db sid newIds).Sublist db.links :=
  List.filter_sublist db.links

theorem mem_pendingLinks {db : DB} {sid : Nat} {newIds : List Nat} {l : Link} :
    l ∈ pendingLinks db sid newIds ↔
      l.species_id = sid ∧ l.park_id ∈ newIds ∧ parkExists db l.park_id ∧
        (⟨l.park_id, sid⟩ : Link) ∉ db.links := by
  unfold pendingLinks
  rw [List.mem_filterMap]
  constructor
  · rintro ⟨pid, hpid, hf⟩
    rw [List.mem_filter] at hpid
    obtain ⟨hpidNew, hq⟩ := hpid
    rw [Bool.not_eq_true', decide_eq_false_iff_not] at hq
    obtain ⟨park, hpark, hl⟩ := Option.map_eq_some'.mp hf
    have hid := sessionGetPark_id hpark
    have hex : parkExists db pid := ⟨park, sessionGetPark_mem hpark, hid⟩
    subst hl
    refine ⟨rfl, ?_, ?_, ?_⟩
    · show park.id ∈ newIds
      rw [hid]
      exact hpidNew
    · show parkExists db park.id
      rw [hid]
      exact hex
    · show (⟨park.id, sid⟩ : Link) ∉ db.links
      rw [hid]
      intro hmem
      exact hq (mem_currentIds.mpr ⟨hex, hmem⟩)
  · rintro ⟨h1, h2, h3, h4⟩
    refine ⟨l.park_id, ?_, ?_⟩
    · rw [List.mem_filter]
      refine ⟨h2, ?_⟩
      rw [Bool.not_eq_true', decide_eq_false_iff_not]
      intro hc
      exact h4 (mem_currentIds.mp hc).2
    · obtain ⟨park, hpark⟩ :=
        Option.isSome_iff_exists.mp (sessionGetPark_isSome_iff.mpr h3)
      rw [hpark, Option.map_some']
      have hid := sessionGetPark_id hpark
      cases l
      cases h1
      cases hid
      rfl

theorem nodup_pendingLinks {db : DB} {sid : Nat} {newIds : List Nat}
    (h : newIds.Nodup) : (pendingLinks db sid newIds).Nodup := by
  unfold pendingLinks
  refine List.Nodup.filterMap ?_ (h.filter _)
  intro a a' b hb hb'
  obtain ⟨park, hpark, hl⟩ := Option.map_eq_some'.mp hb
  obtain ⟨park', hpark', hl'⟩ := Option.map_eq_some'.mp hb'
  have ha := sessionGetPark_id hpark
  have ha' := sessionGetPark_id hpark'
  have : park.id = park'.id := congrArg Link.park_id (hl.trans hl'.symm)
  rw [← ha, ← ha', this]

theorem pendingLinks_disjoint (db : DB) (sid : Nat) (newIds : List Nat) :
    ∀ l ∈ pendingLinks db sid newIds, l ∉ removeStale db sid newIds := by
  intro l hl hmem
  obtain ⟨h1, _, _, h4⟩ := mem_pendingLinks.mp hl
  have : l ∈ db.links := (mem_removeStale.mp hmem).1
  apply h4
  have hle : (⟨l.park_id, sid⟩ : Link) = l := by
    cases l
    cases h1
    rfl
  rw [hle]
  exact this

theorem insertLinks_ok {existing pending : List Link}
    (h1 : pending.Nodup) (h2 : ∀ l ∈ pending, l ∉ existing) :
    insertLinks existing pending = Except.ok (existing ++ pending) := by
  unfold insertLinks
  rw [if_pos ⟨h1, h2⟩]

theorem mem_createPending {db : DB} {sid : Nat} {pidList : List Nat} {l : Link} :
    l ∈ createPending db sid pidList ↔
      l.species_id = sid ∧ l.park_id ∈ pidList ∧ parkExists db l.park_id := by
  unfold createPending
  rw [List.mem_filterMap]
  constructor
  · rintro ⟨pid, hpid, hf⟩
    obtain ⟨park, hpark, hl⟩ := Option.map_eq_some'.mp hf
    have hid := sessionGetPark_id hpark
    have hex : parkExists db pid := ⟨park, sessionGetPark_mem hpark, hid⟩
    subst hl
    refine ⟨rfl, ?_, ?_⟩
    · show park.id ∈ pidList
      rw [hid]
      exact hpid
    · show parkExists db park.id
      rw [hid]
      exact hex
  · rintro ⟨h1, h2, h3⟩
    refine ⟨l.park_id, h2, ?_⟩
    obtain ⟨park, hpark⟩ :=
      Option.isSome_iff_exists.mp (sessionGetPark_isSome_iff.mpr h3)
    rw [hpark, Option.map_some']
    have hid := sessionGetPark_id hpark
    cases l
    cases h1
    cases hid
    rfl

theorem mem_le_species_fold (l : List Species) (s : Species) (hs : s ∈ l) :
    s.id ≤ l.foldr (fun s m => max s.id m) 0 := by
  induction l with
  | nil => cases hs
  | cons a t ih =>
    rcases List.mem_cons.mp hs with rfl | hmem
    · exact le_max_left _ _
    · exact le_trans (ih hmem) (le_max_right _ _)

theorem mem_le_park_fold (l : List Park) (p : Park) (hp : p ∈ l) :
    p.id ≤ l.foldr (fun p m => max p.id m) 0 := by
  induction l with
  | nil => cases hp
  | cons a t ih =>
    rcases List.mem_cons.mp hp with rfl | hmem
    · exact le_max_left _ _
    · exact le_trans (ih hmem) (le_max_right _ _)

theorem speciesId_lt_next {db : DB} {sid : Nat} (h : speciesExists db sid) :
    sid < nextSpeciesId db := by
  obtain ⟨s, hs, rfl⟩ := h
  have := mem_le_species_fold db.species s hs
  unfold nextSpeciesId
  omega

theorem parkId_lt_next {db : DB} {pid : Nat} (h : parkExists db pid) :
    pid < nextParkId db := by
  obtain ⟨p, hp, rfl⟩ := h
  have := mem_le_park_fold db.parks p hp
  unfold nextParkId
  omega

theorem update_species_not_found {db : DB} {sid : Nat} {inp : SpeciesUpdate}
    (h : sessionGetSpecies db sid = none) :
    update_species db sid inp = (db, Except.error (ApiError.notFound speciesNotFound)) := by
  unfold update_species
  rw [h]

theorem update_species_some_none {db : DB} {sid : Nat} {inp : SpeciesUpdate} {s0 : Species}
    (h : sessionGetSpecies db sid = some s0) (hP : inp.park_ids = none) :
    update_species db sid inp =
      ({ db with
          species := db.species.map
            (fun s => if s.id = s0.id then applySpeciesUpdate inp s0 else s) },
       Except.ok
         (speciesOut
           { db with
              species := db.species.map
                (fun s => if s.id = s0.id then applySpeciesUpdate inp s0 else s) }
           (applySpeciesUpdate inp s0))) := by
  unfold update_species
  rw [h, hP]

theorem update_species_some_some {db : DB} {sid : Nat} {inp : SpeciesUpdate} {s0 : Species}
    {P : List Nat} (h : sessionGetSpecies db sid = some s0) (hP : inp.park_ids = some P) :
    update_species db sid inp =
      ({ db with
          species := db.species.map
            (fun s => if s.id = s0.id then applySpeciesUpdate inp s0 else s),
          links := removeStale db s0.id P.dedup ++ pendingLinks db s0.id P.dedup },
       Except.ok
         (speciesOut
           { db with
              species := db.species.map
                (fun s => if s.id = s0.id then applySpeciesUpdate inp s0 else s),
              links := removeStale db s0.id P.dedup ++ pendingLinks db s0.id P.dedup }
           (applySpeciesUpdate inp s0))) := by
  unfold update_species
  rw [h, hP]
  dsimp only
  rw [insertLinks_ok (nodup_pendingLinks (List.nodup_dedup P))
    (pendingLinks_disjoint db s0.id P.dedup)]

theorem delete_species_not_found {db : DB} {sid : Nat}
    (h : sessionGetSpecies db sid = none) :
    delete_species db sid = (db, Except.error (ApiError.notFound speciesNotFound)) := by
  unfold delete_species
  rw [h]

theorem delete_species_found {db : DB} {sid : Nat} {s0 : Species}
    (h : sessionGetSpecies db sid = some s0) :
    delete_species db sid =
      ({ db with
          species := db.species.filter (fun s => !(decide (s.id = s0.id))),
          links := db.links.filter (fun l => !(decide (l.species_id = s0.id))) },
       Except.ok ()) := by
  unfold delete_species
  rw [h]

theorem update_species_parks (db : DB) (sid : Nat) (inp : SpeciesUpdate) :
    (update_species db sid inp).1.parks = db.parks := by
  cases h : sessionGetSpecies db sid with
  | none => rw [update_species_not_found h]
  | some s0 =>
    cases hP : inp.park_ids with
    | none => rw [update_species_some_none h hP]
    | some P => rw [update_species_some_some h hP]

theorem update_species_linked_iff {db : DB} {sid : Nat} {inp : SpeciesUpdate} {s0 : Species}
    {P : List Nat} (h : sessionGetSpecies db sid = some s0) (hP : inp.park_ids = some P)
    (href : ∀ l ∈ db.links, parkExists db l.park_id) :
    ∀ pid, (⟨pid, sid⟩ : Link) ∈ (update_species db sid inp).1.links ↔
      (pid ∈ P ∧ parkExists db pid) := by
  have hid := sessionGetSpecies_id h
  subst hid
  rw [update_species_some_some h hP]
  intro pid
  rw [List.mem_append, mem_removeStale, mem_pendingLinks]
  dsimp only
  constructor
  · rintro (⟨hmem, hno⟩ | ⟨_, h2, h3, _⟩)
    · have hex : parkExists db pid := href _ hmem
      by_contra hc
      rw [not_and] at hc
      refine hno ⟨rfl, hex, fun hdup => ?_⟩
      exact hc (List.mem_dedup.mp hdup) hex
    · exact ⟨List.mem_dedup.mp h2, h3⟩
  · rintro ⟨hp, hex⟩
    by_cases hmem : (⟨pid, s0.id⟩ : Link) ∈ db.links
    · left
      exact ⟨hmem, fun ⟨_, _, h3⟩ => h3 (List.mem_dedup.mpr hp)⟩
    · right
      exact ⟨rfl, List.mem_dedup.mpr hp, hex, hmem⟩

theorem update_species_links_parkRef {db : DB} {sid : Nat} {inp : SpeciesUpdate}
    (href : ∀ l ∈ db.links, parkExists db l.park_id) :
    ∀ l ∈ (update_species db sid inp).1.links, parkExists db l.park_id := by
  cases h : sessionGetSpecies db sid with
  | none => rw [update_species_not_found h]; exact href
  | some s0 =>
    cases hP : inp.park_ids with
    | none => rw [update_species_some_none h hP]; exact href
    | some P =>
      rw [update_species_some_some h hP]
      intro l hl
      rcases List.mem_append.mp hl with hl | hl
      · exact href _ (mem_removeStale.mp hl).1
      · exact (mem_pendingLinks.mp hl).2.2.1

theorem find?_map_replace {α : Type} (idf : α → Nat) (n : Nat) (x1 : α) (hx : idf x1 = n)
    (l : List α) (hs : (l.find? (fun a => decide (idf a = n))).isSome) :
    (l.map (fun a => if idf a = n then x1 else a)).find? (fun a => decide (idf a = n)) =
      some x1 := by
  induction l with
  | nil => simp at hs
  | cons a t ih =>
    by_cases ha : idf a = n
    · rw [List.map_cons, if_pos ha]
      exact List.find?_cons_of_pos _ (by simpa using hx)
    · rw [List.map_cons, if_neg ha]
      rw [List.find?_cons_of_neg _ (by simpa using ha)]
      rw [List.find?_cons_of_neg _ (by simpa using ha)] at hs
      exact ih hs

theorem sessionGetSpecies_after_update {db : DB} {sid : Nat} {inp : SpeciesUpdate}
    {s0 : Species} (h : sessionGetSpecies db sid = some s0) :
    sessionGetSpecies (update_species db sid inp).1 sid =
      some (applySpeciesUpdate inp s0) := by
  have hid := sessionGetSpecies_id h
  subst hid
  have hx : (applySpeciesUpdate inp s0).id = s0.id := rfl
  have hs : (db.species.find? (fun s => decide (s.id = s0.id))).isSome := by
    rw [show db.species.find? (fun s => decide (s.id = s0.id)) = sessionGetSpecies db s0.id from rfl, h]
    rfl
  cases hP : inp.park_ids with
  | none =>
    rw [update_species_some_none h hP]
    exact find?_map_replace Species.id s0.id (applySpeciesUpdate inp s0) hx db.species hs
  | some P =>
    rw [update_species_some_some h hP]
    exact find?_map_replace Species.id s0.id (applySpeciesUpdate inp s0) hx db.species hs

theorem createPending_filter_exists (db : DB) (sid : Nat) (pidList : List Nat) :
    createPending db sid (pidList.filter (fun pid => decide (parkExists db pid))) =
      createPending db sid pidList := by
  unfold createPending
  induction pidList with
  | nil => rfl
  | cons a t ih =>
    by_cases ha : parkExists db a
    · obtain ⟨park, hpark⟩ :=
        Option.isSome_iff_exists.mp (sessionGetPark_isSome_iff.mpr ha)
      simp [List.filter_cons, List.filterMap_cons, ha, hpark, ih]
    · have h0 : sessionGetPark db a = none := sessionGetPark_eq_none_iff.mpr ha
      simp [List.filter_cons, List.filterMap_cons, ha, h0, ih]

theorem nodup_createPending {db : DB} {sid : Nat} {pidList : List Nat}
    (h : (pidList.filter (fun pid => decide (parkExists db pid))).Nodup) :
    (createPending db sid pidList).Nodup := by
  rw [← createPending_filter_exists]
  unfold createPending
  refine List.Nodup.filterMap ?_ h
  intro a a' b hb hb'
  obtain ⟨park, hpark, hl⟩ := Option.map_eq_some'.mp hb
  obtain ⟨park', hpark', hl'⟩ := Option.map_eq_some'.mp hb'
  have ha := sessionGetPark_id hpark
  have ha' := sessionGetPark_id hpark'
  have : park.id = park'.id := congrArg Link.park_id (hl.trans hl'.symm)
  rw [← ha, ← ha', this]

theorem createPending_disjoint {db : DB}
    (hsp : ∀ l ∈ db.links, speciesExists db l.species_id) (pidList : List Nat) :
    ∀ l ∈ createPending db (nextSpeciesId db) pidList, l ∉ db.links := by
  intro l hl hmem
  have h1 := (mem_createPending.mp hl).1
  have h2 := speciesId_lt_next (hsp l hmem)
  rw [h1] at h2
  exact lt_irrefl _ h2

theorem create_species_eq {db : DB} {inp : SpeciesCreate}
    (hnd : (inp.park_ids.filter (fun pid => decide (parkExists db pid))).Nodup)
    (hsp : ∀ l ∈ db.links, speciesExists db l.species_id) :
    create_species db inp =
      ({ db with
          species := db.species ++ [createRow db inp],
          links := db.links ++ createPending db (nextSpeciesId db) inp.park_ids },
       Except.ok
         (speciesOut
           { db with
              species := db.species ++ [createRow db inp],
              links := db.links ++ createPending db (nextSpeciesId db) inp.park_ids }
           (createRow db inp))) := by
  unfold create_species
  dsimp only
  rw [show createPending
        { parks := db.parks, species := db.species ++ [createRow db inp], links := db.links }
        (createRow db inp).id inp.park_ids =
      createPending db (nextSpeciesId db) inp.park_ids from rfl]
  rw [insertLinks_ok (nodup_createPending hnd) (createPending_disjoint hsp inp.park_ids)]

theorem update_park_not_found {db : DB} {pid : Nat} {inp : ParkUpdate}
    (h : sessionGetPark db pid = none) :
    update_park db pid inp = (db, Except.error (ApiError.notFound parkNotFound)) := by
  unfold update_park
  rw [h]

theorem update_park_found {db : DB} {pid : Nat} {inp : ParkUpdate} {p0 : Park}
    (h : sessionGetPark db pid = some p0) :
    update_park db pid inp =
      ({ db with
          parks := db.parks.map (fun p => if p.id = p0.id then applyParkUpdate inp p0 else p) },
       Except.ok (applyParkUpdate inp p0)) := by
  unfold update_park
  rw [h]

theorem delete_park_not_found {db : DB} {pid : Nat}
    (h : sessionGetPark db pid = none) :
    delete_park db pid = (db, Except.error (ApiError.notFound parkNotFound)) := by
  unfold delete_park
  rw [h]

theorem delete_park_found {db : DB} {pid : Nat} {p0 : Park}
    (h : sessionGetPark db pid = some p0) :
    delete_park db pid =
      ({ db with
          parks := db.parks.filter (fun p => !(decide (p.id = p0.id))),
          links := db.links.filter (fun l => !(decide (l.park_id = p0.id))) },
       Except.ok ()) := by
  unfold delete_park
  rw [h]

theorem exists_id_map_of_exists {α : Type} (idf : α → Nat) (f : α → α)
    (hf : ∀ a, idf (f a) = idf a) (l : List α) (n : Nat)
    (h : ∃ a ∈ l, idf a = n) : ∃ a ∈ l.map f, idf a = n := by
  obtain ⟨a, ha, rfl⟩ := h
  exact ⟨f a, List.mem_map_of_mem f ha, hf a⟩

theorem mem_filter_not_decide {α : Type} [DecidableEq α] {l : List α} {g : α → Nat}
    {n : Nat} {a : α} :
    a ∈ l.filter (fun x => !(decide (g x = n))) ↔ a ∈ l ∧ g a ≠ n := by
  rw [List.mem_filter, Bool.not_eq_true', decide_eq_false_iff_not]

theorem linkInv_create_park (db : DB) (inp : ParkCreate) (h : LinkInv db) :
    LinkInv (create_park db inp).1 := by
  obtain ⟨hnd, hpark, hspec⟩ := h
  unfold create_park
  refine ⟨hnd, ?_, ?_⟩
  · intro l hl
    obtain ⟨p, hp, hid⟩ := hpark l hl
    exact ⟨p, List.mem_append_left _ hp, hid⟩
  · intro l hl
    exact hspec l hl

theorem linkInv_update_park (db : DB) (pid : Nat) (inp : ParkUpdate) (h : LinkInv db) :
    LinkInv (update_park db pid inp).1 := by
  obtain ⟨hnd, hpark, hspec⟩ := h
  cases hp : sessionGetPark db pid with
  | none =>
    rw [update_park_not_found hp]
    exact ⟨hnd, hpark, hspec⟩
  | some p0 =>
    rw [update_park_found hp]
    refine ⟨hnd, ?_, ?_⟩
    · intro l hl
      refine exists_id_map_of_exists Park.id _ ?_ db.parks l.park_id (hpark l hl)
      intro p
      by_cases hc : p.id = p0.id
      · rw [if_pos hc]
        exact hc.symm ▸ rfl
      · rw [if_neg hc]
    · intro l hl
      exact hspec l hl

theorem linkInv_delete_park (db : DB) (pid : Nat) (h : LinkInv db) :
    LinkInv (delete_park db pid).1 := by
  obtain ⟨hnd, hpark, hspec⟩ := h
  cases hp : sessionGetPark db pid with
  | none =>
    rw [delete_park_not_found hp]
    exact ⟨hnd, hpark, hspec⟩
  | some p0 =>
    rw [delete_park_found hp]
    refine ⟨(List.filter_sublist _).nodup hnd, ?_, ?_⟩
    · intro l hl
      obtain ⟨hmem, hne⟩ := mem_filter_not_decide.mp hl
      obtain ⟨p, hp', hid⟩ := hpark l hmem
      refine ⟨p, mem_filter_not_decide.mpr ⟨hp', ?_⟩, hid⟩
      rw [hid]
      exact hne
    · intro l hl
      exact hspec l (mem_filter_not_decide.mp hl).1

theorem linkInv_create_species (db : DB) (inp : SpeciesCreate) (h : LinkInv db) :
    LinkInv (create_species db inp).1 := by
  obtain ⟨hnd, hpark, hspec⟩ := h
  unfold create_species
  dsimp only
  split
  next committed heq =>
    unfold insertLinks at heq
    split at heq
    next hcond =>
      obtain ⟨hpnd, hdisj⟩ := hcond
      cases heq
      refine ⟨List.Nodup.append hnd hpnd (fun a ha ha' => hdisj a ha' ha), ?_, ?_⟩
      · intro l hl
        rcases List.mem_append.mp hl with hl | hl
        · exact hpark l hl
        · exact (mem_createPending.mp hl).2.2
      · intro l hl
        rcases List.mem_append.mp hl with hl | hl
        · obtain ⟨s, hs, hid⟩ := hspec l hl
          exact ⟨s, List.mem_append_left _ hs, hid⟩
        · refine ⟨createRow db inp, List.mem_append_right _ (List.mem_singleton_self _), ?_⟩
          exact ((mem_createPending.mp hl).1).symm
    next => cases heq
  next e heq =>
    refine ⟨hnd, hpark, ?_⟩
    intro l hl
    obtain ⟨s, hs, hid⟩ := hspec l hl
    exact ⟨s, List.mem_append_left _ hs, hid⟩

theorem linkInv_update_species (db : DB) (sid : Nat) (inp : SpeciesUpdate) (h : LinkInv db) :
    LinkInv (update_species db sid inp).1 := by
  obtain ⟨hnd, hpark, hspec⟩ := h
  have hidf : ∀ s0 : Species, ∀ s : Species,
      (if s.id = s0.id then applySpeciesUpdate inp s0 else s).id = s.id := by
    intro s0 s
    by_cases hc : s.id = s0.id
    · rw [if_pos hc]
      exact hc.symm ▸ rfl
    · rw [if_neg hc]
  cases hs : sessionGetSpecies db sid with
  | none =>
    rw [update_species_not_found hs]
    exact ⟨hnd, hpark, hspec⟩
  | some s0 =>
    have hs0mem := sessionGetSpecies_mem hs
    cases hP : inp.park_ids with
    | none =>
      rw [update_species_some_none hs hP]
      refine ⟨hnd, hpark, ?_⟩
      intro l hl
      exact exists_id_map_of_exists Species.id _ (hidf s0) db.species l.species_id (hspec l hl)
    | some P =>
      rw [update_species_some_some hs hP]
      refine ⟨?_, ?_, ?_⟩
      · refine List.Nodup.append ((removeStale_sublist db s0.id P.dedup).nodup hnd)
          (nodup_pendingLinks (List.nodup_dedup P)) ?_
        intro a ha ha'
        exact pendingLinks_disjoint db s0.id P.dedup a ha' ha
      · intro l hl
        rcases List.mem_append.mp hl with hl | hl
        · exact hpark l (mem_removeStale.mp hl).1
        · exact (mem_pendingLinks.mp hl).2.2.1
      · intro l hl
        rcases List.mem_append.mp hl with hl | hl
        · exact exists_id_map_of_exists Species.id _ (hidf s0) db.species l.species_id
            (hspec l (mem_removeStale.mp hl).1)
        · refine exists_id_map_of_exists Species.id _ (hidf s0) db.species l.species_id ?_
          exact ⟨s0, hs0mem, ((mem_pendingLinks.mp hl).1).symm ▸ rfl⟩

theorem linkInv_delete_species (db : DB) (sid : Nat) (h : LinkInv db) :
    LinkInv (delete_species db sid).1 := by
  obtain ⟨hnd, hpark, hspec⟩ := h
  cases hs : sessionGetSpecies db sid with
  | none =>
    rw [delete_species_not_found hs]
    exact ⟨hnd, hpark, hspec⟩
  | some s0 =>
    rw [delete_species_found hs]
    refine ⟨(List.filter_sublist _).nodup hnd, ?_, ?_⟩
    · intro l hl
      exact hpark l (mem_filter_not_decide.mp hl).1
    · intro l hl
      obtain ⟨hmem, hne⟩ := mem_filter_not_decide.mp hl
      obtain ⟨s, hs', hid⟩ := hspec l hmem
      refine ⟨s, mem_filter_not_decide.mpr ⟨hs', ?_⟩, hid⟩
      rw [hid]
      exact hne

theorem filter_swap {α : Type} (p q : α → Bool) (l : List α) :
    (l.filter p).filter q = (l.filter q).filter p := by
  rw [List.filter_filter, List.filter_filter]
  exact List.filter_congr (fun a _ => Bool.and_comm _ _)

theorem filter_dedup (p : Nat → Bool) (l : List Nat) :
    (l.filter p).dedup = l.dedup.filter p := by
  induction l with
  | nil => rfl
  | cons a t ih =>
    by_cases hp : p a = true
    · rw [List.filter_cons, if_pos hp]
      by_cases hmem : a ∈ t
      · rw [List.dedup_cons_of_mem (List.mem_filter.mpr ⟨hmem, hp⟩),
          List.dedup_cons_of_mem hmem, ih]
      · have hmem' : a ∉ t.filter p := fun hc => hmem (List.mem_filter.mp hc).1
        rw [List.dedup_cons_of_not_mem hmem', List.dedup_cons_of_not_mem hmem, ih,
          List.filter_cons, if_pos hp]
    · rw [List.filter_cons, if_neg hp]
      by_cases hmem : a ∈ t
      · rw [List.dedup_cons_of_mem hmem, ih]
      · rw [List.dedup_cons_of_not_mem hmem, List.filter_cons, if_neg hp, ih]

theorem removeStale_filter_exists (db : DB) (sid : Nat) (newIds : List Nat) :
    removeStale db sid (newIds.filter (fun pid => decide (parkExists db pid))) =
      removeStale db sid newIds := by
  unfold removeStale
  apply List.filter_congr
  intro l _
  congr 1
  rw [decide_eq_decide]
  constructor
  · rintro ⟨h1, h2, h3⟩
    refine ⟨h1, h2, fun hc => h3 ?_⟩
    obtain ⟨p, hp, hpid⟩ := h2
    have hex : parkExists db l.park_id := ⟨p, (mem_speciesParks.mp hp).1, hpid⟩
    exact List.mem_filter.mpr ⟨hc, decide_eq_true hex⟩
  · rintro ⟨h1, h2, h3⟩
    exact ⟨h1, h2, fun hc => h3 (List.mem_filter.mp hc).1⟩

theorem pendingLinks_filter_exists (db : DB) (sid : Nat) (newIds : List Nat) :
    pendingLinks db sid (newIds.filter (fun pid => decide (parkExists db pid))) =
      pendingLinks db sid newIds := by
  rw [show pendingLinks db sid (newIds.filter (fun pid => decide (parkExists db pid))) =
      createPending db sid
        (((newIds.filter (fun pid => decide (parkExists db pid)))).filter
          (fun pid => !(decide (pid ∈ (speciesParks db sid).map Park.id)))) from rfl]
  rw [show pendingLinks db sid newIds =
      createPending db sid
        (newIds.filter
          (fun pid => !(decide (pid ∈ (speciesParks db sid).map Park.id)))) from rfl]
  rw [filter_swap, createPending_filter_exists]

theorem list_species_order_irrelevant (db : DB) (typeFilter : Option SpeciesType)
    (parkFilter : Option Nat) :
    list_species db typeFilter parkFilter = list_species_parkFirst db typeFilter parkFilter := by
  unfold list_species list_species_parkFirst
  cases typeFilter with
  | none => cases parkFilter <;> rfl
  | some t =>
    cases parkFilter with
    | none => rfl
    | some pid =>
      dsimp only
      rw [filter_swap]

theorem mem_list_species_iff {db : DB} {t : SpeciesType} {pid : Nat} {o : SpeciesOut}
    (href : ∀ l ∈ db.links, parkExists db l.park_id) :
    o ∈ list_species db (some t) (some pid) ↔
      ∃ s ∈ db.species, s.type = t ∧ (⟨pid, s.id⟩ : Link) ∈ db.links ∧ o = speciesOut db s := by
  unfold list_species
  dsimp only
  rw [List.mem_map]
  constructor
  · rintro ⟨s, hs, rfl⟩
    rw [List.mem_filter] at hs
    obtain ⟨hs1, hpred⟩ := hs
    rw [List.mem_filter] at hs1
    obtain ⟨hmem, htype⟩ := hs1
    rw [List.any_eq_true] at hpred
    obtain ⟨p, hp, hpeq⟩ := hpred
    rw [decide_eq_true_eq] at hpeq
    have hview := mem_speciesParks.mp hp
    refine ⟨s, hmem, by simpa using htype, ?_, rfl⟩
    rw [← hpeq]
    exact hview.2
  · rintro ⟨s, hmem, htype, hlink, rfl⟩
    refine ⟨s, ?_, rfl⟩
    rw [List.mem_filter]
    refine ⟨List.mem_filter.mpr ⟨hmem, by simpa using htype⟩, ?_⟩
    rw [List.any_eq_true]
    obtain ⟨p, hp, hpid⟩ := href _ hlink
    refine ⟨p, mem_speciesParks.mpr ⟨hp, ?_⟩, by simpa using hpid⟩
    rw [hpid]
    exact hlink

theorem parkSpecies_count {db : DB} (inv : DBInv db) (pid sid : Nat) :
    ((parkSpecies db pid).map Species.id).count sid =
      if (⟨pid, sid⟩ : Link) ∈ db.links then 1 else 0 := by
  by_cases hmem : (⟨pid, sid⟩ : Link) ∈ db.links
  · rw [if_pos hmem]
    obtain ⟨s, hs, hsid⟩ := inv.toLinkInv.speciesRef _ hmem
    have hmem2 : sid ∈ (parkSpecies db pid).map Species.id := by
      refine List.mem_map.mpr ⟨s, mem_parkSpecies.mpr ⟨hs, ?_⟩, hsid⟩
      rw [hsid]
      exact hmem
    have hnd : ((parkSpecies db pid).map Species.id).Nodup := by
      have hsub : (parkSpecies db pid).Sublist db.species := List.filter_sublist _
      exact (hsub.map Species.id).nodup inv.speciesNodup
    exact List.count_eq_one_of_mem hnd hmem2
  · rw [if_neg hmem, List.count_eq_zero]
    intro hc
    obtain ⟨s, hsmem, rfl⟩ := List.mem_map.mp hc
    exact hmem (mem_parkSpecies.mp hsmem).2

theorem map_id_filter_unique (l : List Park) (hnd : (l.map Park.id).Nodup) (pid : Nat)
    (hex : ∃ p ∈ l, p.id = pid) (q : Park → Bool)
    (hq : ∀ p ∈ l, (q p = true ↔ p.id = pid)) :
    (l.filter q).map Park.id = [pid] := by
  induction l with
  | nil => obtain ⟨p, hp, _⟩ := hex; cases hp
  | cons a t ih =>
    rw [List.map_cons, List.nodup_cons] at hnd
    obtain ⟨hna, hndt⟩ := hnd
    by_cases hqa : q a = true
    · have haid : a.id = pid := (hq a (List.mem_cons_self a t)).mp hqa
      have ht : t.filter q = [] := by
        rw [List.filter_eq_nil_iff]
        intro p hp hqp
        have hpe : p.id = pid := (hq p (List.mem_cons_of_mem a hp)).mp hqp
        apply hna
        rw [haid, ← hpe]
        exact List.mem_map_of_mem Park.id hp
      rw [List.filter_cons, if_pos hqa, ht, List.map_cons, List.map_nil, haid]
    · obtain ⟨p, hp, hpid⟩ := hex
      have hpt : p ∈ t := by
        rcases List.mem_cons.mp hp with rfl | hmem
        · exact absurd ((hq p hp).mpr hpid) hqa
        · exact hmem
      rw [List.filter_cons, if_neg hqa]
      exact ih hndt ⟨p, hpt, hpid⟩ (fun p hp => hq p (List.mem_cons_of_mem a hp))

theorem parkExists_congr {db db' : DB} (h : db'.parks = db.parks) (pid : Nat) :
    parkExists db' pid ↔ parkExists db pid := by
  unfold parkExists
  rw [h]

theorem get_species_not_found {db : DB} {sid : Nat}
    (h : sessionGetSpecies db sid = none) :
    get_species db sid = Except.error (ApiError.notFound speciesNotFound) := by
  unfold get_species
  rw [h]

theorem get_species_found {db : DB} {sid : Nat} {s0 : Species}
    (h : sessionGetSpecies db sid = some s0) :
    get_species db sid = Except.ok (speciesOut db s0) := by
  unfold get_species
  rw [h]

theorem list_species_for_park_not_found {db : DB} {pid : Nat}
    (h : sessionGetPark db pid = none) :
    list_species_for_park db pid = Except.error (ApiError.notFound parkNotFound) := by
  unfold list_species_for_park
  rw [h]

theorem list_species_for_park_found {db : DB} {pid : Nat} {park : Park}
    (h : sessionGetPark db pid = some park) :
    list_species_for_park db pid =
      Except.ok ((parkSpecies db park.id).map (speciesOut db)) := by
  unfold list_species_for_park
  rw [h]

theorem list_for_park_ids {db : DB} {pid : Nat} {out : List SpeciesOut}
    (hout : list_species_for_park db pid = Except.ok out) :
    ∀ o ∈ out, ∃ s ∈ db.species, o.id = s.id := by
  cases hp : sessionGetPark db pid with
  | none => rw [list_species_for_park_not_found hp] at hout; cases hout
  | some park =>
    rw [list_species_for_park_found hp] at hout
    cases hout
    intro o ho
    obtain ⟨s, hsmem, rfl⟩ := List.mem_map.mp ho
    exact ⟨s, (mem_parkSpecies.mp hsmem).1, rfl⟩

theorem create_species_no_notFound (db : DB) (inp : SpeciesCreate) (d : String) :
    (create_species db inp).2 ≠ Except.error (ApiError.notFound d) := by
  unfold create_species
  dsimp only
  split
  next => intro hc; cases hc
  next e heq =>
    unfold insertLinks at heq
    split at heq
    next => cases heq
    next =>
      cases heq
      intro hc
      cases hc

theorem createPending_species_irrel (db : DB) (x : List Species) (sid : Nat)
    (pidList : List Nat) :
    createPending { db with species := x } sid pidList = createPending db sid pidList := rfl

theorem create_species_drop_missing (db : DB) (inp : SpeciesCreate) :
    create_species db
        { inp with
            park_ids := inp.park_ids.filter (fun pid => decide (parkExists db pid)) } =
      create_species db inp := by
  unfold create_species
  dsimp only
  rw [show createRow db
        { inp with
            park_ids := inp.park_ids.filter (fun pid => decide (parkExists db pid)) } =
      createRow db inp from rfl]
  simp only [createPending_species_irrel]
  rw [createPending_filter_exists]

theorem update_species_drop_missing (db : DB) (sid : Nat) (inp : SpeciesUpdate)
    (P : List Nat) (hP : inp.park_ids = some P) :
    update_species db sid
        { inp with
            park_ids := some (P.filter (fun pid => decide (parkExists db pid))) } =
      update_species db sid inp := by
  cases hs : sessionGetSpecies db sid with
  | none => rw [update_species_not_found hs, update_species_not_found hs]
  | some s0 =>
    rw [update_species_some_some hs
        (show ({ inp with
            park_ids := some (P.filter (fun pid => decide (parkExists db pid))) } :
          SpeciesUpdate).park_ids =
            some (P.filter (fun pid => decide (parkExists db pid))) from rfl),
      update_species_some_some hs hP]
    rw [show applySpeciesUpdate
        { inp with
            park_ids := some (P.filter (fun pid => decide (parkExists db pid))) } s0 =
      applySpeciesUpdate inp s0 from rfl]
    rw [filter_dedup, removeStale_filter_exists, pendingLinks_filter_exists]

theorem sessionGetPark_after_update {db : DB} {pid : Nat} {inp : ParkUpdate} {p0 : Park}
    (h : sessionGetPark db pid = some p0) :
    sessionGetPark (update_park db pid inp).1 pid = some (applyParkUpdate inp p0) := by
  have hid := sessionGetPark_id h
  subst hid
  have hs : (db.parks.find? (fun p => decide (p.id = p0.id))).isSome := by
    rw [show db.parks.find? (fun p => decide (p.id = p0.id)) =
      sessionGetPark db p0.id from rfl, h]
    rfl
  rw [update_park_found h]
  exact find?_map_replace Park.id p0.id (applyParkUpdate inp p0) rfl db.parks hs

/-- C1: for every existing species S and every requested park-id list P, after
PUT /api/species/{id} with park_ids = P the set of park-species links for S
equals P intersected with the ids of parks that exist at call time: links
whose park id is absent from P are removed and links are added for ids of
existing parks in P not currently linked. -/
theorem claim_c1 (db : DB) (sid : Nat) (inp : SpeciesUpdate) (P : List Nat)
    (s0 : Species) (inv : DBInv db) (hs : sessionGetSpecies db sid = some s0)
    (hP : inp.park_ids = some P) :
    ∀ pid, ((⟨pid, sid⟩ : Link) ∈ (update_species db sid inp).1.links ↔
      (pid ∈ P ∧ parkExists db pid)) :=
  update_species_linked_iff hs hP inv.toLinkInv.parkRef

theorem claim_c1_witness :
    ((⟨2, 1⟩ : Link) ∈ (update_species dbFix 1 updFix).1.links ↔
      (2 ∈ [2, 3] ∧ parkExists dbFix 2)) :=
  claim_c1 dbFix 1 updFix [2, 3] (speciesFix 1)
    ⟨⟨by decide, by decide, by decide⟩, by decide, by decide⟩ rfl rfl 2

/-- C6: the update-species park-list operation is idempotent: performing the
update with the same request twice in succession yields the same final link
set for the species as performing it once. -/
theorem claim_c6 (db : DB) (sid : Nat) (inp : SpeciesUpdate) (P : List Nat)
    (s0 : Species) (inv : DBInv db) (hs : sessionGetSpecies db sid = some s0)
    (hP : inp.park_ids = some P) :
    ∀ pid,
      ((⟨pid, sid⟩ : Link) ∈
          (update_species (update_species db sid inp).1 sid inp).1.links ↔
        (⟨pid, sid⟩ : Link) ∈ (update_species db sid inp).1.links) := by
  intro pid
  have h1 := update_species_linked_iff hs hP inv.toLinkInv.parkRef pid
  have hs1 : sessionGetSpecies (update_species db sid inp).1 sid =
      some (applySpeciesUpdate inp s0) := sessionGetSpecies_after_update hs
  have hparks := update_species_parks db sid inp
  have href1 : ∀ l ∈ (update_species db sid inp).1.links,
      parkExists (update_species db sid inp).1 l.park_id := by
    intro l hl
    rw [parkExists_congr hparks]
    exact update_species_links_parkRef inv.toLinkInv.parkRef l hl
  have h2 := update_species_linked_iff hs1 hP href1 pid
  rw [h2, h1, parkExists_congr hparks]

theorem claim_c6_witness :
    ((⟨2, 1⟩ : Link) ∈
        (update_species (update_species dbFix 1 updFix).1 1 updFix).1.links ↔
      (⟨2, 1⟩ : Link) ∈ (update_species dbFix 1 updFix).1.links) :=
  claim_c6 dbFix 1 updFix [2, 3] (speciesFix 1)
    ⟨⟨by decide, by decide, by decide⟩, by decide, by decide⟩ rfl rfl 2

/-- C9: update-species and delete-species on a species id that does not exist
raise the not-found error before performing any write: the returned state is
exactly the input state. -/
theorem claim_c9 (db : DB) (sid : Nat) (inp : SpeciesUpdate)
    (h : ¬ speciesExists db sid) :
    update_species db sid inp = (db, Except.error (ApiError.notFound speciesNotFound)) ∧
      delete_species db sid = (db, Except.error (ApiError.notFound speciesNotFound)) := by
  have h0 := sessionGetSpecies_eq_none_iff.mpr h
  exact ⟨update_species_not_found h0, delete_species_not_found h0⟩

theorem claim_c9_witness :
    update_species dbFix 5 updFix =
        (dbFix, Except.error (ApiError.notFound speciesNotFound)) ∧
      delete_species dbFix 5 = (dbFix, Except.error (ApiError.notFound speciesNotFound)) :=
  claim_c9 dbFix 5 updFix (by decide)

/-- C3: DELETE /api/species/{id} on an existing species removes every row of
the park_species link table referencing it, and listing species for any park
afterwards no longer includes the deleted species. -/
theorem claim_c3 (db : DB) (sid : Nat) (s0 : Species)
    (hs : sessionGetSpecies db sid = some s0) :
    (∀ l ∈ (delete_species db sid).1.links, l.species_id ≠ sid) ∧
    (∀ pid out, list_species_for_park (delete_species db sid).1 pid = Except.ok out →
      ∀ o ∈ out, o.id ≠ sid) := by
  have hid := sessionGetSpecies_id hs
  subst hid
  rw [delete_species_found hs]
  constructor
  · intro l hl
    exact (mem_filter_not_decide.mp hl).2
  · intro pid out hout o ho
    obtain ⟨s, hsmem, hoid⟩ := list_for_park_ids hout o ho
    have hne : s.id ≠ s0.id := (mem_filter_not_decide.mp hsmem).2
    rw [hoid]
    exact hne

theorem claim_c3_witness :
    (∀ l ∈ (delete_species dbFix 1).1.links, l.species_id ≠ 1) ∧
    (∀ pid out, list_species_for_park (delete_species dbFix 1).1 pid = Except.ok out →
      ∀ o ∈ out, o.id ≠ 1) :=
  claim_c3 dbFix 1 (speciesFix 1) rfl

/-- C4: GET /api/species with both a type filter and a park filter returns
exactly the species of that type linked to that park (a logical AND), and
applying the two filters in the opposite order yields the same listing. -/
theorem claim_c4 (db : DB) (t : SpeciesType) (pid : Nat) (inv : DBInv db) :
    (∀ o, o ∈ list_species db (some t) (some pid) ↔
      ∃ s ∈ db.species, s.type = t ∧ (⟨pid, s.id⟩ : Link) ∈ db.links ∧
        o = speciesOut db s) ∧
    list_species db (some t) (some pid) = list_species_parkFirst db (some t) (some pid) :=
  ⟨fun _ => mem_list_species_iff inv.toLinkInv.parkRef,
   list_species_order_irrelevant db (some t) (some pid)⟩

theorem claim_c4_witness :
    (∀ o, o ∈ list_species dbFix (some SpeciesType.animal) (some 1) ↔
      ∃ s ∈ dbFix.species, s.type = SpeciesType.animal ∧
        (⟨1, s.id⟩ : Link) ∈ dbFix.links ∧ o = speciesOut dbFix s) ∧
    list_species dbFix (some SpeciesType.animal) (some 1) =
      list_species_parkFirst dbFix (some SpeciesType.animal) (some 1) :=
  claim_c4 dbFix SpeciesType.animal 1
    ⟨⟨by decide, by decide, by decide⟩, by decide, by decide⟩

/-- C10: update requests only touch the fields present in the body: an
update-species request leaves every scalar field omitted from the request
unchanged and leaves the link table unchanged when park_ids is absent, and an
update-park request leaves omitted park fields unchanged. -/
theorem claim_c10 :
    (∀ (db : DB) (sid : Nat) (inp : SpeciesUpdate) (s0 : Species),
      sessionGetSpecies db sid = some s0 →
      (∃ s1, sessionGetSpecies (update_species db sid inp).1 sid = some s1 ∧
        (inp.name = none → s1.name = s0.name) ∧
        (inp.type = none → s1.type = s0.type) ∧
        (inp.scientific_name = none → s1.scientific_name = s0.scientific_name) ∧
        (inp.description = none → s1.description = s0.description) ∧
        (inp.threats = none → s1.threats = s0.threats) ∧
        (inp.protection_measures = none →
          s1.protection_measures = s0.protection_measures) ∧
        (inp.safety_guidelines = none → s1.safety_guidelines = s0.safety_guidelines) ∧
        (inp.medicinal_use = none → s1.medicinal_use = s0.medicinal_use) ∧
        (inp.image_url = none → s1.image_url = s0.image_url)) ∧
      (inp.park_ids = none → (update_species db sid inp).1.links = db.links)) ∧
    (∀ (db : DB) (pid : Nat) (inp : ParkUpdate) (p0 : Park),
      sessionGetPark db pid = some p0 →
      ∃ p1, sessionGetPark (update_park db pid inp).1 pid = some p1 ∧
        (inp.name = none → p1.name = p0.name) ∧
        (inp.governorate = none → p1.governorate = p0.governorate) ∧
        (inp.description = none → p1.description = p0.description) ∧
        (inp.latitude = none → p1.latitude = p0.latitude) ∧
        (inp.longitude = none → p1.longitude = p0.longitude) ∧
        (inp.area_km2 = none → p1.area_km2 = p0.area_km2)) := by
  constructor
  · intro db sid inp s0 hs
    constructor
    · refine ⟨applySpeciesUpdate inp s0, sessionGetSpecies_after_update hs,
        ?_, ?_, ?_, ?_, ?_, ?_, ?_, ?_, ?_⟩ <;>
        (intro hnone; simp [applySpeciesUpdate, hnone])
    · intro hP
      rw [update_species_some_none hs hP]
  · intro db pid inp p0 hp
    refine ⟨applyParkUpdate inp p0, sessionGetPark_after_update hp,
      ?_, ?_, ?_, ?_, ?_, ?_⟩ <;>
      (intro hnone; simp [applyParkUpdate, hnone])

theorem claim_c10_witness :
    (∃ s1, sessionGetSpecies (update_species dbFix 1 updFixEmpty).1 1 = some s1 ∧
      (updFixEmpty.name = none → s1.name = (speciesFix 1).name) ∧
      (updFixEmpty.type = none → s1.type = (speciesFix 1).type) ∧
      (updFixEmpty.scientific_name = none →
        s1.scientific_name = (speciesFix 1).scientific_name) ∧
      (updFixEmpty.description = none → s1.description = (speciesFix 1).description) ∧
      (updFixEmpty.threats = none → s1.threats = (speciesFix 1).threats) ∧
      (updFixEmpty.protection_measures = none →
        s1.protection_measures = (speciesFix 1).protection_measures) ∧
      (updFixEmpty.safety_guidelines = none →
        s1.safety_guidelines = (speciesFix 1).safety_guidelines) ∧
      (updFixEmpty.medicinal_use = none →
        s1.medicinal_use = (speciesFix 1).medicinal_use) ∧
      (updFixEmpty.image_url = none → s1.image_url = (speciesFix 1).image_url)) ∧
    (updFixEmpty.park_ids = none → (update_species dbFix 1 updFixEmpty).1.links = dbFix.links) :=
  claim_c10.1 dbFix 1 updFixEmpty (speciesFix 1) rfl

/-- C5: for every existing park, GET /api/parks/{id}/species returns exactly
the species whose link set contains the park: a species id appears in the
response exactly once when a link row for it exists and never otherwise, and
every response element is the rendering of a linked species row. -/
theorem claim_c5 (db : DB) (pid : Nat) (inv : DBInv db) (hex : parkExists db pid) :
    ∃ out, list_species_for_park db pid = Except.ok out ∧
      (∀ sid, (out.map SpeciesOut.id).count sid =
        if (⟨pid, sid⟩ : Link) ∈ db.links then 1 else 0) ∧
      (∀ o ∈ out, ∃ s ∈ db.species, (⟨pid, s.id⟩ : Link) ∈ db.links ∧
        o = speciesOut db s) := by
  obtain ⟨park, hpark⟩ := Option.isSome_iff_exists.mp (sessionGetPark_isSome_iff.mpr hex)
  have hpid := sessionGetPark_id hpark
  subst hpid
  refine ⟨(parkSpecies db park.id).map (speciesOut db),
    list_species_for_park_found hpark, ?_, ?_⟩
  · intro sid
    have hmm : ((parkSpecies db park.id).map (speciesOut db)).map SpeciesOut.id =
        (parkSpecies db park.id).map Species.id := by
      rw [List.map_map]
      rfl
    rw [hmm]
    exact parkSpecies_count inv park.id sid
  · intro o ho
    obtain ⟨s, hsmem, rfl⟩ := List.mem_map.mp ho
    obtain ⟨hs1, hs2⟩ := mem_parkSpecies.mp hsmem
    exact ⟨s, hs1, hs2, rfl⟩

theorem claim_c5_witness :
    ∃ out, list_species_for_park dbFix 1 = Except.ok out ∧
      (∀ sid, (out.map SpeciesOut.id).count sid =
        if (⟨1, sid⟩ : Link) ∈ dbFix.links then 1 else 0) ∧
      (∀ o ∈ out, ∃ s ∈ dbFix.species, (⟨1, s.id⟩ : Link) ∈ dbFix.links ∧
        o = speciesOut dbFix s) :=
  claim_c5 dbFix 1 ⟨⟨by decide, by decide, by decide⟩, by decide, by decide⟩ (by decide)

/-- C7: the association operations raise NotFound exactly for the primary
entity addressed by id — get/update/delete of a missing species id and
listing species for a missing park id surface the 404, the same calls on an
existing id succeed, create never raises NotFound — while park ids that do
not resolve, appearing merely as members of a requested park_ids set in
create or update, are dropped without any effect on the outcome. -/
theorem claim_c7 :
    (∀ (db : DB) (sid : Nat) (inp : SpeciesUpdate), ¬ speciesExists db sid →
      get_species db sid = Except.error (ApiError.notFound speciesNotFound) ∧
      (update_species db sid inp).2 = Except.error (ApiError.notFound speciesNotFound) ∧
      (delete_species db sid).2 = Except.error (ApiError.notFound speciesNotFound)) ∧
    (∀ (db : DB) (pid : Nat), ¬ parkExists db pid →
      list_species_for_park db pid = Except.error (ApiError.notFound parkNotFound)) ∧
    (∀ (db : DB) (sid : Nat) (inp : SpeciesUpdate), speciesExists db sid →
      (∃ o, get_species db sid = Except.ok o) ∧
      (∃ o, (update_species db sid inp).2 = Except.ok o) ∧
      (delete_species db sid).2 = Except.ok ()) ∧
    (∀ (db : DB) (pid : Nat), parkExists db pid →
      ∃ out, list_species_for_park db pid = Except.ok out) ∧
    (∀ (db : DB) (inp : SpeciesCreate) (d : String),
      (create_species db inp).2 ≠ Except.error (ApiError.notFound d)) ∧
    (∀ (db : DB) (inp : SpeciesCreate),
      create_species db
          { inp with
              park_ids := inp.park_ids.filter (fun pid => decide (parkExists db pid)) } =
        create_species db inp) ∧
    (∀ (db : DB) (sid : Nat) (inp : SpeciesUpdate) (P : List Nat),
      inp.park_ids = some P →
      update_species db sid
          { inp with
              park_ids := some (P.filter (fun pid => decide (parkExists db pid))) } =
        update_species db sid inp) := by
  refine ⟨?_, ?_, ?_, ?_, ?_, ?_, ?_⟩
  · intro db sid inp h
    have h0 := sessionGetSpecies_eq_none_iff.mpr h
    exact ⟨get_species_not_found h0, by rw [update_species_not_found h0],
      by rw [delete_species_not_found h0]⟩
  · intro db pid h
    exact list_species_for_park_not_found (sessionGetPark_eq_none_iff.mpr h)
  · intro db sid inp h
    obtain ⟨s0, hs⟩ := Option.isSome_iff_exists.mp (sessionGetSpecies_isSome_iff.mpr h)
    refine ⟨⟨speciesOut db s0, get_species_found hs⟩, ?_, by rw [delete_species_found hs]⟩
    cases hP : inp.park_ids with
    | none => exact ⟨_, by rw [update_species_some_none hs hP]⟩
    | some P => exact ⟨_, by rw [update_species_some_some hs hP]⟩
  · intro db pid h
    obtain ⟨park, hpark⟩ := Option.isSome_iff_exists.mp (sessionGetPark_isSome_iff.mpr h)
    exact ⟨_, list_species_for_park_found hpark⟩
  · exact create_species_no_notFound
  · exact create_species_drop_missing
  · exact update_species_drop_missing

theorem claim_c7_witness :
    get_species dbFix 5 = Except.error (ApiError.notFound speciesNotFound) ∧
      (update_species dbFix 5 updFix).2 = Except.error (ApiError.notFound speciesNotFound) ∧
      (delete_species dbFix 5).2 = Except.error (ApiError.notFound speciesNotFound) :=
  claim_c7.1 dbFix 5 updFix (by decide)

/-- C8: every operation preserves the link-table invariant — at most one row
per (park, species) pair and referential integrity of both foreign keys — in
particular create-species when the requested park_ids list contains a
repeated id. -/
theorem claim_c8 (db : DB) (h : LinkInv db) :
    (∀ inp : ParkCreate, LinkInv (create_park db inp).1) ∧
    (∀ (pid : Nat) (inp : ParkUpdate), LinkInv (update_park db pid inp).1) ∧
    (∀ pid : Nat, LinkInv (delete_park db pid).1) ∧
    (∀ inp : SpeciesCreate, LinkInv (create_species db inp).1) ∧
    (∀ (sid : Nat) (inp : SpeciesUpdate), LinkInv (update_species db sid inp).1) ∧
    (∀ sid : Nat, LinkInv (delete_species db sid).1) :=
  ⟨fun inp => linkInv_create_park db inp h,
   fun pid inp => linkInv_update_park db pid inp h,
   fun pid => linkInv_delete_park db pid h,
   fun inp => linkInv_create_species db inp h,
   fun sid inp => linkInv_update_species db sid inp h,
   fun sid => linkInv_delete_species db sid h⟩

theorem claim_c8_witness : LinkInv (create_species dbFix creFixDup).1 :=
  (claim_c8 dbFix ⟨by decide, by decide, by decide⟩).2.2.2.1 creFixDup

/-- C2 counterexample: a create-species request whose park_ids list contains
an id that does not resolve to an existing park (2) does not always succeed —
with park_ids = [1, 1, 2] against a store holding only park 1, the two
identical pending link rows violate the composite primary key of park_species
and the operation fails with an integrity error. -/
theorem claim_c2_counterexample :
    (2 ∈ creFixDup.park_ids ∧ ¬ parkExists dbFixEmpty 2) ∧
      (create_species dbFixEmpty creFixDup).2 = Except.error ApiError.integrityError := by
  refine ⟨⟨?_, ?_⟩, ?_⟩
  · decide
  · decide
  · rfl

/-- C2 (amended): for every create-species request whose park_ids list
contains no repeated resolving id, the operation succeeds without error even
when some requested ids do not resolve to an existing park, persists the
species, creates exactly one link per id that resolves to an existing park
and silently skips the others; in particular park_ids = [1, 2] where park 2
does not exist yields a species whose resolved park-id set is [1]. -/
theorem claim_c2_amended (db : DB) (inp : SpeciesCreate) (inv : DBInv db)
    (hnd : (inp.park_ids.filter (fun pid => decide (parkExists db pid))).Nodup) :
    (∃ out, (create_species db inp).2 = Except.ok out) ∧
    speciesExists (create_species db inp).1 (nextSpeciesId db) ∧
    (∀ pid, ((⟨pid, nextSpeciesId db⟩ : Link) ∈ (create_species db inp).1.links ↔
      (pid ∈ inp.park_ids ∧ parkExists db pid))) ∧
    (create_species db inp).1.links.Nodup ∧
    (inp.park_ids = [1, 2] → parkExists db 1 → ¬ parkExists db 2 →
      ∀ out, (create_species db inp).2 = Except.ok out → out.park_ids = [1]) := by
  have heq := create_species_eq hnd inv.toLinkInv.speciesRef
  have hfresh : ∀ l ∈ db.links, l.species_id ≠ nextSpeciesId db := by
    intro l hl hc
    have hlt := speciesId_lt_next (inv.toLinkInv.speciesRef l hl)
    rw [hc] at hlt
    exact lt_irrefl _ hlt
  refine ⟨?_, ?_, ?_, ?_, ?_⟩
  · rw [heq]
    exact ⟨_, rfl⟩
  · rw [heq]
    exact ⟨createRow db inp, List.mem_append_right _ (List.mem_singleton_self _), rfl⟩
  · intro pid
    rw [heq]
    dsimp only
    constructor
    · intro hmem
      rcases List.mem_append.mp hmem with hl | hl
      · exact absurd rfl (hfresh _ hl)
      · obtain ⟨_, h2, h3⟩ := mem_createPending.mp hl
        exact ⟨h2, h3⟩
    · rintro ⟨hp, hex⟩
      exact List.mem_append_right _ (mem_createPending.mpr ⟨rfl, hp, hex⟩)
  · rw [heq]
    dsimp only
    exact List.Nodup.append inv.toLinkInv.nodup (nodup_createPending hnd)
      (fun a ha ha' =>
        createPending_disjoint inv.toLinkInv.speciesRef inp.park_ids a ha' ha)
  · intro h12 hex1 hnex2 out hout
    rw [heq] at hout
    dsimp only at hout
    cases hout
    show (speciesParks
        { parks := db.parks, species := db.species ++ [createRow db inp],
          links := db.links ++ createPending db (nextSpeciesId db) inp.park_ids }
        (createRow db inp).id).map Park.id = [1]
    unfold speciesParks
    dsimp only
    apply map_id_filter_unique db.parks inv.parksNodup 1 hex1
    intro p hp
    rw [List.any_eq_true]
    constructor
    · rintro ⟨l, hl, hdec⟩
      rw [decide_eq_true_eq] at hdec
      obtain ⟨hlp, hls⟩ := hdec
      rcases List.mem_append.mp hl with hl | hl
      · exact absurd hls (hfresh _ hl)
      · obtain ⟨_, h2, h3⟩ := mem_createPending.mp hl
        rw [h12] at h2
        rcases List.mem_cons.mp h2 with he | h2'
        · rw [← hlp, he]
        · rw [List.mem_singleton.mp h2'] at h3
          exact absurd h3 hnex2
    · intro hpid
      refine ⟨⟨1, (createRow db inp).id⟩,
        List.mem_append_right _ (mem_createPending.mpr ⟨rfl, ?_, ?_⟩), ?_⟩
      · rw [h12]
        exact List.mem_cons_self _ _
      · exact hex1
      · rw [decide_eq_true_eq]
        exact ⟨hpid.symm, rfl⟩

theorem claim_c2_amended_witness :
    (∃ out, (create_species dbFixEmpty creFix).2 = Except.ok out) ∧
    speciesExists (create_species dbFixEmpty creFix).1 (nextSpeciesId dbFixEmpty) ∧
    (∀ pid, ((⟨pid, nextSpeciesId dbFixEmpty⟩ : Link) ∈
        (create_species dbFixEmpty creFix).1.links ↔
      (pid ∈ creFix.park_ids ∧ parkExists dbFixEmpty pid))) ∧
    (create_species dbFixEmpty creFix).1.links.Nodup ∧
    (creFix.park_ids = [1, 2] → parkExists dbFixEmpty 1 → ¬ parkExists dbFixEmpty 2 →
      ∀ out, (create_species dbFixEmpty creFix).2 = Except.ok out → out.park_ids = [1]) :=
  claim_c2_amended dbFixEmpty creFix
    ⟨⟨by decide, by decide, by decide⟩, by decide, by decide⟩ (by decide)

end TunisiaParks
